import Mathlib

/-!
Verification of the `akamai-get.py` command-line tool.

This file shallowly embeds the parts of the program that its specification
makes checkable claims about:

* `CacheControl.load` (cache-file loading, `FileNotFoundError` handling),
* `RuleInfo` / `_runrules` (the rule-tree flattener),
* `AkamaiDiag.reference` (error-code extraction from a reference string),
* `AkamaiDiag.propertybyhostname` / `propertyrules` / `origins`
  (the hostname-to-origins pipeline),
* the `urldebug` and `origins` subcommand output loops of `__main__`.

Network and filesystem effects are passed in explicitly: the HTTP responses
a function consumes become parameters, the filesystem becomes a partial map
from filenames to file contents.  Python `dict`s keyed by strings with
insertion-order semantics become association lists (`Dict` below); a raised
`KeyError` becomes `Except.error`.  Python values that may lack a key are
modelled with `Option` fields.
-/

/-- Insertion-ordered string-keyed dictionary of buckets, modelling the
Python dicts `self._behaviors` and `self._criteria` whose values are lists. -/
abbrev Dict (α : Type) := List (String × List α)

/-- Dictionary lookup `d[k]`: the bucket of the first entry whose key is `k`. -/
def dictGet (d : Dict α) (k : String) : Option (List α) :=
  (d.find? (fun p => p.1 == k)).map (fun p => p.2)

/-- In-place update of one dictionary entry: append `v` to the bucket when
the entry's key is `k`, leave the entry unchanged otherwise. -/
def updEntry (k : String) (v : α) (p : String × List α) : String × List α :=
  if p.1 == k then (p.1, p.2 ++ [v]) else p

/-- The loop body of `_runrules` (lines 100-102 and 106-109 of
`akamai-get.py`): create the bucket `d[k]` on first encounter (appended at
the end, matching dict insertion order), then append `v` to it. -/
def dictAppend (d : Dict α) (k : String) (v : α) : Dict α :=
  if d.any (fun p => p.1 == k) then d.map (updEntry k v)
  else d ++ [(k, [v])]

/-- Fold a list into a dictionary, appending each element under its key. -/
def buildDict (key : α → String) (xs : List α) (d : Dict α) : Dict α :=
  xs.foldl (fun d x => dictAppend d (key x) x) d

/-- The `netStorage` sub-object of an `origin` behavior's options. -/
structure NetStorage where
  downloadDomainName : Option String
deriving DecidableEq

/-- The `options` object of a behavior; only the fields read by the
`origins` subcommand (lines 283-288) are modelled, each optional because
a JSON object may lack the key. -/
structure BehaviorOptions where
  originType : Option String
  hostname : Option String
  netStorage : Option NetStorage
deriving DecidableEq

/-- A behavior node of the rule tree: a `name` and its `options`. -/
structure Behavior where
  name : String
  options : Option BehaviorOptions
deriving DecidableEq

/-- A criterion node of the rule tree: a `name`, an opaque payload `info`,
and the `rulename` key injected by the flattener (absent before). -/
structure Criterion where
  name : String
  info : String
  rulename : Option String
deriving DecidableEq

/-- A rule node of the tree.  Each field is optional because `_runrules`
reads them as dictionary keys that a malformed node may lack. -/
inductive RuleNode : Type where
  | mk (name : Option String) (behaviors : Option (List Behavior))
       (criteria : Option (List Criterion)) (children : Option (List RuleNode))

/-- The `name` field of a rule node. -/
def RuleNode.name : RuleNode → Option String
  | RuleNode.mk nm _ _ _ => nm

/-- The `behaviors` field of a rule node. -/
def RuleNode.behaviors : RuleNode → Option (List Behavior)
  | RuleNode.mk _ bs _ _ => bs

/-- The `criteria` field of a rule node. -/
def RuleNode.criteria : RuleNode → Option (List Criterion)
  | RuleNode.mk _ _ cr _ => cr

/-- The `children` field of a rule node. -/
def RuleNode.children : RuleNode → Option (List RuleNode)
  | RuleNode.mk _ _ _ ch => ch

/-- The rule-tree JSON object handed to `RuleInfo`: its `rules` key holds
the root rule node (optional: a malformed tree may lack the key). -/
structure RuleTree where
  rules : Option RuleNode

/-- The state held by a `RuleInfo` object: `self._behaviors` and
`self._criteria`. -/
abbrev FlatState := Dict Behavior × Dict Criterion

/-- The criteria loop of `_runrules` (lines 105-109): for each criterion,
create its bucket, set `criteria['rulename'] = rule['name']` (a `KeyError`
when the rule has no `name`), and append the annotated criterion. -/
def runcriteria (rulename : Option String) : List Criterion → Dict Criterion →
    Except String (Dict Criterion)
  | [], d => Except.ok d
  | c :: cs, d =>
    match rulename with
    | none => Except.error "KeyError: name"
    | some rn =>
      runcriteria rulename cs (dictAppend d c.name { c with rulename := some rn })

/-- Lines 104-109 of `_runrules`: the criteria loop runs only when the node
has a `criteria` key (`if 'criteria' in rule:`); a node without one is
silently skipped. -/
def runcriteriaField (rulename : Option String) (cr : Option (List Criterion))
    (d : Dict Criterion) : Except String (Dict Criterion) :=
  match cr with
  | none => Except.ok d
  | some cs => runcriteria rulename cs d

mutual
/-- `RuleInfo._runrules` (lines 98-112): index the node's behaviors by name,
run the guarded criteria loop, then recurse into `rule['children']`.
Reading `rule['behaviors']` or `rule['children']` on a node lacking the key
raises a `KeyError`, modelled as `Except.error`. -/
def runrules : RuleNode → FlatState → Except String FlatState
  | RuleNode.mk nm bs cr ch, st =>
    match bs with
    | none => Except.error "KeyError: behaviors"
    | some behaviors =>
      let bd := buildDict Behavior.name behaviors st.1
      match runcriteriaField nm cr st.2 with
      | Except.error e => Except.error e
      | Except.ok cd =>
        match ch with
        | none => Except.error "KeyError: children"
        | some children => runlist children (bd, cd)

/-- The `for child in rule['children']` loop of line 111-112: run
`_runrules` on each child in order, threading the accumulated state. -/
def runlist : List RuleNode → FlatState → Except String FlatState
  | [], st => Except.ok st
  | c :: cs, st =>
    match runrules c st with
    | Except.error e => Except.error e
    | Except.ok st1 => runlist cs st1
end

/-- `RuleInfo.__init__` (lines 91-96): start from two empty dicts; when the
input is truthy, flatten starting from `rules['rules']` (a `KeyError` when
that key is absent). -/
def ruleInfo (rules : Option RuleTree) : Except String FlatState :=
  match rules with
  | none => Except.ok ([], [])
  | some rt =>
    match rt.rules with
    | none => Except.error "KeyError: rules"
    | some root => runrules root ([], [])

mutual
/-- The behaviors of a tree in document order: depth-first pre-order, a
node's own behaviors before those of its children. -/
def docBehaviors : RuleNode → List Behavior
  | RuleNode.mk _ bs _ none => bs.getD []
  | RuleNode.mk _ bs _ (some cs) => bs.getD [] ++ docsBehaviors cs

/-- The behaviors of a forest in document order. -/
def docsBehaviors : List RuleNode → List Behavior
  | [] => []
  | c :: cs => docBehaviors c ++ docsBehaviors cs
end

/-- Annotate criteria with an owning rule name, as `_runrules` line 108 does. -/
def annotateCriteria (rulename : Option String) (cs : List Criterion) : List Criterion :=
  cs.map (fun c => { c with rulename := rulename })

mutual
/-- The criteria of a tree in document order, each annotated with the name
of the rule node that immediately owns it. -/
def docCriteria : RuleNode → List Criterion
  | RuleNode.mk nm _ cr none => annotateCriteria nm (cr.getD [])
  | RuleNode.mk nm _ cr (some cs) => annotateCriteria nm (cr.getD []) ++ docsCriteria cs

/-- The annotated criteria of a forest in document order. -/
def docsCriteria : List RuleNode → List Criterion
  | [] => []
  | c :: cs => docCriteria c ++ docsCriteria cs
end

/-- One entry of the `versions.items` array returned by the
`find-by-value` search that `propertybyhostname` posts (lines 197-207). -/
structure PropertyVersion where
  propertyId : String
  propertyVersion : Nat
  contractId : String
  groupId : String
  productionStatus : String
deriving DecidableEq

/-- `AkamaiDiag.propertybyhostname` (lines 197-207): scan the response's
`versions.items` (passed in as `items`) and return the first entry whose
`productionStatus` is `ACTIVE`, else `None`. -/
def propertybyhostname (items : List PropertyVersion) : Option PropertyVersion :=
  items.find? (fun x => x.productionStatus == "ACTIVE")

/-- `AkamaiDiag.propertyrules` (lines 209-220): when the hostname lookup
found a property, fetch its rule tree (`fetchRules` stands for the GET of
`/papi/v1/properties/.../rules`); otherwise return `None`. -/
def propertyrules (items : List PropertyVersion)
    (fetchRules : PropertyVersion → RuleTree) : Option RuleTree :=
  match propertybyhostname items with
  | some property => some (fetchRules property)
  | none => none

/-- `AkamaiDiag.origins` (lines 222-227): when a rule tree was retrieved,
flatten it and return `ruleinfo.behaviors['origin']` — an unguarded lookup
that raises a `KeyError` when no behavior named `origin` exists; when no
rule tree was retrieved, return `None`. -/
def origins (items : List PropertyVersion)
    (fetchRules : PropertyVersion → RuleTree) :
    Except String (Option (List Behavior)) :=
  match propertyrules items fetchRules with
  | none => Except.ok none
  | some rules =>
    match ruleInfo (some rules) with
    | Except.error e => Except.error e
    | Except.ok st =>
      match dictGet st.1 "origin" with
      | some l => Except.ok (some l)
      | none => Except.error "KeyError: origin"

/-- The body of the `origins` print loop (lines 283-288) for one behavior:
`CUSTOMER` origins print `options.hostname`, `NET_STORAGE` origins print
`options.netStorage.downloadDomainName`, other origin types print nothing;
a missing key raises a `KeyError`. -/
def formatOrigin (b : Behavior) : Except String (List String) :=
  match b.options with
  | none => Except.error "KeyError: options"
  | some o =>
    match o.originType with
    | none => Except.error "KeyError: originType"
    | some t =>
      if t == "CUSTOMER" then
        match o.hostname with
        | none => Except.error "KeyError: hostname"
        | some h => Except.ok [h]
      else if t == "NET_STORAGE" then
        match o.netStorage with
        | none => Except.error "KeyError: netStorage"
        | some ns =>
          match ns.downloadDomainName with
          | none => Except.error "KeyError: downloadDomainName"
          | some dn => Except.ok [dn]
      else Except.ok []

/-- The `for x in result` loop of the `origins` subcommand (lines 283-288),
collecting the printed lines in order. -/
def formatOrigins : List Behavior → Except String (List String)
  | [] => Except.ok []
  | b :: bs =>
    match formatOrigin b with
    | Except.error e => Except.error e
    | Except.ok ls =>
      match formatOrigins bs with
      | Except.error e => Except.error e
      | Except.ok ls2 => Except.ok (ls ++ ls2)

/-- The lines a subcommand writes to standard output and standard error. -/
structure CmdOutput where
  stdout : List String
  stderr : List String
deriving DecidableEq

/-- The message line 281 prints to standard error on a failed lookup. -/
def originsErrorMessage : String :=
  "Problem, hostname incorrect or issue with accessing the API"

/-- The `origins` subcommand of `__main__` (lines 278-288): a `None` result
prints an error message to standard error; otherwise the behaviors are
printed to standard output; an exception from the lookup propagates. -/
def originsCommand (result : Except String (Option (List Behavior))) :
    Except String CmdOutput :=
  match result with
  | Except.error e => Except.error e
  | Except.ok none => Except.ok ⟨[], [originsErrorMessage]⟩
  | Except.ok (some xs) =>
    match formatOrigins xs with
    | Except.error e => Except.error e
    | Except.ok lines => Except.ok ⟨lines, []⟩

/-- Python `str.split(sep)` for a single-character separator: split on every
occurrence, keeping empty segments, so that the result always has one more
segment than there are separators. -/
def pysplit (sep : Char) : List Char → List (List Char)
  | [] => [[]]
  | c :: cs =>
    if c == sep then [] :: pysplit sep cs
    else
      match pysplit sep cs with
      | [] => [[c]]
      | p :: ps => (c :: p) :: ps

/-- Lines 175-176 of `AkamaiDiag.reference`: when the (HTML-unescaped)
reference string contains `#`, replace it by `errorCode.split('#')[1]`.
The input here is the string after `html.unescape` (an external library
collaborator applied on line 174), as a list of characters.  The index-1
access is written with a default, justified by `pysplit_length_ge_two`
below: the guard guarantees at least two segments. -/
def extractErrorCode (errorCode : List Char) : List Char :=
  if errorCode.contains '#' then (pysplit '#' errorCode).getD 1 [] else errorCode

/-- Line 178: the error code is interpolated into the translated-error
endpoint path. -/
def referenceEndpoint (unescapedRef : List Char) : List Char :=
  "/diagnostic-tools/v2/errors/".data ++ extractErrorCode unescapedRef
    ++ "/translated-error".data

/-- One entry of `result["urlDebug"]["httpResponse"]`; the subcommand reads
its `name` and `value` keys, either of which may be absent. -/
structure HttpRespEntry where
  name : Option String
  value : Option String
deriving DecidableEq

/-- The `urlDebug` object of a urldebug API result. -/
structure UrlDebugInfo where
  httpResponse : Option (List HttpRespEntry)
deriving DecidableEq

/-- A urldebug API result as consumed by the subcommand (lines 261-269). -/
structure UrlDebugResult where
  urlDebug : Option UrlDebugInfo
deriving DecidableEq

/-- Python `'{name:<22}'` left-justification to a field width. -/
def ljust (s : String) (w : Nat) : String :=
  s ++ String.mk (List.replicate (w - s.length) ' ')

/-- Line 267: `'{name:<22}: {value}'.format(**x)`. -/
def formatRespLine (n v : String) : String :=
  ljust n 22 ++ ": " ++ v

/-- The `for x in result["urlDebug"]["httpResponse"]` loop (lines 265-267):
the lines printed before any failure, paired with the failure if one
occurred.  An entry whose `value` is falsy (the empty string) is skipped;
a missing `value` or `name` key raises a `KeyError` after the earlier
lines have already been printed. -/
def formatRespEntries : List HttpRespEntry → List String × Option String
  | [] => ([], none)
  | x :: xs =>
    match x.value with
    | none => ([], some "KeyError: value")
    | some v =>
      if v == "" then formatRespEntries xs
      else
        match x.name with
        | none => ([], some "KeyError: name")
        | some n =>
          let r := formatRespEntries xs
          (formatRespLine n v :: r.1, r.2)

/-- The whole `try` body of the urldebug subcommand (lines 264-267): the
two outer key lookups, then the response loop. -/
def urldebugTryBody (r : UrlDebugResult) : List String × Option String :=
  match r.urlDebug with
  | none => ([], some "KeyError: urlDebug")
  | some ud =>
    match ud.httpResponse with
    | none => ([], some "KeyError: httpResponse")
    | some entries => formatRespEntries entries

/-- One item printed by the urldebug subcommand: a formatted line, or the
raw JSON dump `json.dumps(result, indent=2)` of the whole result. -/
inductive OutItem : Type where
  | line (s : String)
  | rawDump (r : UrlDebugResult)
deriving DecidableEq

/-- The urldebug subcommand (lines 261-269): run the `try` body; when it
fails, the bare `except:` prints the raw JSON result after the lines that
were already printed, and no exception propagates. -/
def urldebugCommand (r : UrlDebugResult) : List OutItem :=
  match urldebugTryBody r with
  | (ls, none) => ls.map OutItem.line
  | (ls, some _) => ls.map OutItem.line ++ [OutItem.rawDump r]

namespace CacheControl

/-- Python `str.rstrip('/')` applied to the cache folder in
`CacheControl.__init__` (line 59). -/
def rstripSlashes (s : String) : String :=
  String.mk ((s.data.reverse.dropWhile (fun c => c == '/')).reverse)

/-- `CacheControl.cachename` (lines 61-67): `'{}/{}{}'.format(folder, name,
extension)`.  The `mkdirs` side effect is not modelled. -/
def cachename (cachefolder name extension : String) : String :=
  cachefolder ++ "/" ++ name ++ extension

/-- `CacheControl.load` (lines 75-85): open the cache file and parse it as
JSON.  The filesystem is the partial map `fs`; a missing file (`fs` returns
`none`, Python's `FileNotFoundError`) is caught and yields `None`; a parse
failure (`json.load` raising) is not caught and propagates. -/
def load (fs : String → Option String) (parseJson : String → Except String α)
    (cachefolder name extension : String) : Except String (Option α) :=
  match fs (cachename cachefolder name extension) with
  | none => Except.ok none
  | some contents =>
    match parseJson contents with
    | Except.error e => Except.error e
    | Except.ok data => Except.ok (some data)

end CacheControl

/-- A rule tree whose root holds no behaviors, criteria or children. -/
def emptyRuleTree : RuleTree :=
  ⟨some (RuleNode.mk (some "default") (some []) (some []) (some []))⟩

/-- A `caching` behavior used as a concrete test vector. -/
def cachingA : Behavior := ⟨"caching", some ⟨none, some "host-a", none⟩⟩

/-- A second, distinct `caching` behavior used as a concrete test vector. -/
def cachingB : Behavior := ⟨"caching", some ⟨none, some "host-b", none⟩⟩

/-- A two-node tree with one `caching` behavior in the root and one in the
child, exercising bucket sharing across nodes. -/
def twoBehaviorTree : RuleNode :=
  RuleNode.mk (some "default") (some [cachingA]) (some [])
    (some [RuleNode.mk (some "child") (some [cachingB]) none (some [])])

/-- A `path` criterion used as a concrete test vector. -/
def pathCritA : Criterion := ⟨"path", "p1", none⟩

/-- A second, distinct `path` criterion used as a concrete test vector. -/
def pathCritB : Criterion := ⟨"path", "p2", none⟩

/-- A two-node tree with one `path` criterion in the root and one in the
child, exercising the `rulename` annotation. -/
def twoCriterionTree : RuleNode :=
  RuleNode.mk (some "default") (some []) (some [pathCritA])
    (some [RuleNode.mk (some "child") (some []) (some [pathCritB]) (some [])])

/-- The `CUSTOMER`-type `origin` behavior of the fixed origins test tree. -/
def originCustomer : Behavior :=
  ⟨"origin", some ⟨some "CUSTOMER", some "a.example.com", none⟩⟩

/-- The `NET_STORAGE`-type `origin` behavior of the fixed origins test tree. -/
def originNetStorage : Behavior :=
  ⟨"origin", some ⟨some "NET_STORAGE", none, some ⟨some "b.example.com.download"⟩⟩⟩

/-- The fixed rule tree with exactly the two `origin` behaviors. -/
def originsFixedTree : RuleTree :=
  ⟨some (RuleNode.mk (some "default")
    (some [originCustomer, originNetStorage]) (some []) (some []))⟩

/-- A property-version item whose `productionStatus` is `ACTIVE`. -/
def activeProperty : PropertyVersion := ⟨"prp_1", 1, "ctr_1", "grp_1", "ACTIVE"⟩

/-- A property-version item whose `productionStatus` is not `ACTIVE`. -/
def stagingProperty : PropertyVersion := ⟨"prp_2", 2, "ctr_2", "grp_2", "STAGING"⟩

/-- A rule tree that flattens successfully but holds no `origin` behavior. -/
def noOriginTree : RuleTree :=
  ⟨some (RuleNode.mk (some "default") (some [⟨"caching", none⟩]) (some []) (some []))⟩

/-- Lookup in the empty dictionary finds nothing. -/
theorem dictGet_nil (nm : String) : dictGet ([] : Dict α) nm = none := rfl

/-- Lookup finds the bucket of a matching head entry. -/
theorem dictGet_cons_eq (k : String) (b : List α) (d : Dict α) :
    dictGet ((k, b) :: d) k = some b := by
  unfold dictGet
  rw [List.find?_cons_of_pos _ (by simp)]
  rfl

/-- Lookup steps over a non-matching head entry. -/
theorem dictGet_cons_ne (k : String) (b : List α) (d : Dict α) (nm : String)
    (h : ¬ k = nm) : dictGet ((k, b) :: d) nm = dictGet d nm := by
  unfold dictGet
  rw [List.find?_cons_of_neg _ (by simp [h])]

/-- `updEntry` on an entry with the matching key. -/
theorem updEntry_eq (k : String) (v : α) (b : List α) :
    updEntry k v (k, b) = (k, b ++ [v]) := by
  simp [updEntry]

/-- `updEntry` on an entry with a different key. -/
theorem updEntry_ne (k : String) (v : α) (k' : String) (b : List α)
    (h : ¬ k' = k) : updEntry k v (k', b) = (k', b) := by
  simp [updEntry, h]

/-- Updating the bucket at key `k` in place leaves lookups at other keys
unchanged. -/
theorem dictGet_mapUpd_ne (k : String) (v : α) (nm : String) (h : ¬ k = nm) :
    ∀ d : Dict α, dictGet (d.map (updEntry k v)) nm = dictGet d nm := by
  intro d
  induction d with
  | nil => rfl
  | cons hd tl ih =>
    obtain ⟨k', b⟩ := hd
    rw [List.map_cons]
    by_cases hk : k' = k
    · subst hk
      rw [updEntry_eq, dictGet_cons_ne _ _ _ _ h, dictGet_cons_ne _ _ _ _ h, ih]
    · rw [updEntry_ne _ _ _ _ hk]
      by_cases hnm : k' = nm
      · subst hnm
        rw [dictGet_cons_eq, dictGet_cons_eq]
      · rw [dictGet_cons_ne _ _ _ _ hnm, dictGet_cons_ne _ _ _ _ hnm, ih]

/-- Adding a fresh entry at the end leaves lookups at other keys unchanged. -/
theorem dictGet_appendEntry_ne (k : String) (v : α) (nm : String)
    (h : ¬ k = nm) : ∀ d : Dict α,
      dictGet (d ++ [(k, [v])]) nm = dictGet d nm := by
  intro d
  induction d with
  | nil =>
    rw [List.nil_append, dictGet_cons_ne _ _ _ _ h]
  | cons hd tl ih =>
    obtain ⟨k', b⟩ := hd
    rw [List.cons_append]
    by_cases hnm : k' = nm
    · subst hnm
      rw [dictGet_cons_eq, dictGet_cons_eq]
    · rw [dictGet_cons_ne _ _ _ _ hnm, dictGet_cons_ne _ _ _ _ hnm, ih]

/-- Appending under key `k` leaves lookups at other keys unchanged. -/
theorem dictGet_dictAppend_ne (d : Dict α) (k : String) (v : α) (nm : String)
    (h : ¬ k = nm) : dictGet (dictAppend d k v) nm = dictGet d nm := by
  unfold dictAppend
  by_cases hc : d.any (fun p => p.1 == k)
  · rw [if_pos hc]
    exact dictGet_mapUpd_ne k v nm h d
  · rw [if_neg hc]
    exact dictGet_appendEntry_ne k v nm h d

/-- Appending under key `k` appends to the bucket found at `k` (creating it
when absent). -/
theorem dictGet_dictAppend_eq (d : Dict α) (k : String) (v : α) :
    (dictGet (dictAppend d k v) k).getD [] = (dictGet d k).getD [] ++ [v] := by
  induction d with
  | nil =>
    have h1 : dictAppend ([] : Dict α) k v = [(k, [v])] := by
      simp [dictAppend]
    rw [h1, dictGet_cons_eq, dictGet_nil]
    rfl
  | cons hd tl ih =>
    obtain ⟨k', b⟩ := hd
    by_cases hk : k' = k
    · subst hk
      have h1 : dictAppend ((k', b) :: tl) k' v =
          (k', b ++ [v]) :: tl.map (updEntry k' v) := by
        simp [dictAppend, List.any_cons, updEntry_eq]
      rw [h1, dictGet_cons_eq, dictGet_cons_eq]
      rfl
    · by_cases hc : tl.any (fun p => p.1 == k)
      · have h1 : dictAppend ((k', b) :: tl) k v =
            (k', b) :: (dictAppend tl k v) := by
          simp [dictAppend, List.any_cons, hk, hc, updEntry_ne _ _ _ _ hk]
        rw [h1, dictGet_cons_ne _ _ _ _ hk, dictGet_cons_ne _ _ _ _ hk]
        exact ih
      · have h1 : dictAppend ((k', b) :: tl) k v =
            (k', b) :: (dictAppend tl k v) := by
          simp [dictAppend, List.any_cons, hk, hc]
        rw [h1, dictGet_cons_ne _ _ _ _ hk, dictGet_cons_ne _ _ _ _ hk]
        exact ih

/-- `buildDict` over an appended list builds the second part on top of the
first. -/
theorem buildDict_append (key : α → String) (xs ys : List α) (d : Dict α) :
    buildDict key (xs ++ ys) d = buildDict key ys (buildDict key xs d) := by
  simp [buildDict, List.foldl_append]

/-- Each name's bucket of a built dictionary extends the original bucket
with exactly the elements of that name, in list order. -/
theorem dictGet_buildDict (key : α → String) (xs : List α) :
    ∀ (d : Dict α) (nm : String),
      (dictGet (buildDict key xs d) nm).getD [] =
        (dictGet d nm).getD [] ++ xs.filter (fun x => key x == nm) := by
  induction xs with
  | nil => intro d nm; simp [buildDict]
  | cons x xs ih =>
    intro d nm
    have hstep : buildDict key (x :: xs) d =
        buildDict key xs (dictAppend d (key x) x) := rfl
    rw [hstep, ih]
    by_cases h : key x = nm
    · rw [h, dictGet_dictAppend_eq]
      simp [h, List.filter_cons]
    · rw [dictGet_dictAppend_ne _ _ _ _ h]
      simp [h, List.filter_cons]

/-- The criteria loop succeeds exactly by building the dictionary of the
annotated criteria, in list order. -/
theorem runcriteria_ok (rn : Option String) :
    ∀ (cs : List Criterion) (d d' : Dict Criterion),
      runcriteria rn cs d = Except.ok d' →
      d' = buildDict Criterion.name (annotateCriteria rn cs) d := by
  intro cs
  induction cs with
  | nil =>
    intro d d' h
    simp only [runcriteria] at h
    cases h
    rfl
  | cons c cs ih =>
    intro d d' h
    cases rn with
    | none => simp [runcriteria] at h
    | some rn' =>
      simp only [runcriteria] at h
      exact ih _ _ h

/-- The guarded criteria block succeeds exactly by building the dictionary
of the annotated criteria of the node (none when the key is absent). -/
theorem runcriteriaField_ok (rn : Option String) (cr : Option (List Criterion))
    (d d' : Dict Criterion) (h : runcriteriaField rn cr d = Except.ok d') :
    d' = buildDict Criterion.name (annotateCriteria rn (cr.getD [])) d := by
  cases cr with
  | none =>
    simp only [runcriteriaField] at h
    cases h
    rfl
  | some cs => exact runcriteria_ok rn cs d d' h

/-- A name absent from the original dictionary and from the list stays
absent from the built dictionary. -/
theorem dictGet_buildDict_none (key : α → String) (xs : List α) :
    ∀ (d : Dict α) (nm : String), dictGet d nm = none →
      (∀ x ∈ xs, ¬ key x = nm) → dictGet (buildDict key xs d) nm = none := by
  induction xs with
  | nil => intro d nm h _; simpa [buildDict] using h
  | cons x xs ih =>
    intro d nm h hall
    have hx : ¬ key x = nm := hall x (by simp)
    have hstep : buildDict key (x :: xs) d =
        buildDict key xs (dictAppend d (key x) x) := rfl
    rw [hstep]
    refine ih _ _ ?_ (fun y hy => hall y (by simp [hy]))
    rw [dictGet_dictAppend_ne _ _ _ _ hx]
    exact h

/-- A successful run of the flattener computes exactly the dictionaries
built from the document-order behavior and annotated-criteria lists, for a
tree (first conjunct) and for a forest (second conjunct). -/
theorem runrules_runlist_ok :
    (∀ (node : RuleNode) (st : FlatState) (st' : FlatState),
        runrules node st = Except.ok st' →
        st' = (buildDict Behavior.name (docBehaviors node) st.1,
               buildDict Criterion.name (docCriteria node) st.2)) ∧
    (∀ (l : List RuleNode) (st : FlatState) (st' : FlatState),
        runlist l st = Except.ok st' →
        st' = (buildDict Behavior.name (docsBehaviors l) st.1,
               buildDict Criterion.name (docsCriteria l) st.2)) := by
  refine runrules.mutual_induct
    (fun node st => ∀ st', runrules node st = Except.ok st' →
        st' = (buildDict Behavior.name (docBehaviors node) st.1,
               buildDict Criterion.name (docCriteria node) st.2))
    (fun l st => ∀ st', runlist l st = Except.ok st' →
        st' = (buildDict Behavior.name (docsBehaviors l) st.1,
               buildDict Criterion.name (docsCriteria l) st.2))
    ?_ ?_ ?_ ?_ ?_ ?_ ?_
  · intro nm cr ch st st' h
    rw [runrules.eq_1] at h
    simp at h
  · intro nm cr ch st behaviors e hcrit st' h
    rw [runrules.eq_2, hcrit] at h
    simp at h
  · intro nm cr st behaviors cd hcrit st' h
    rw [runrules.eq_2, hcrit] at h
    simp at h
  · intro nm cr st behaviors bd cd hcrit children ih st' h
    rw [runrules.eq_2, hcrit] at h
    have h2 := ih st' h
    have hcd := runcriteriaField_ok nm cr st.2 cd hcrit
    rw [h2, hcd]
    simp [docBehaviors, docCriteria, buildDict_append]
  · intro st st' h
    rw [runlist.eq_1] at h
    cases h
    rfl
  · intro c cs st e herr _ st' h
    rw [runlist.eq_2, herr] at h
    simp at h
  · intro c cs st st1 hok ih1 ih2 st' h
    rw [runlist.eq_2, hok] at h
    have h1 := ih1 st1 hok
    have h2 := ih2 st' h
    rw [h2, h1]
    simp [docsBehaviors, docsCriteria, buildDict_append]

/-- A Python split never yields an empty list of segments. -/
theorem pysplit_ne_nil (sep : Char) : ∀ l : List Char, ¬ pysplit sep l = [] := by
  intro l
  cases l with
  | nil => simp [pysplit]
  | cons c cs =>
    by_cases h : c == sep
    · simp [pysplit, h]
    · cases hp : pysplit sep cs with
      | nil => simp [pysplit, h, hp]
      | cons p ps => simp [pysplit, h, hp]

/-- The first segment of a Python split is the prefix up to the first
separator. -/
theorem pysplit_headI (sep : Char) : ∀ l : List Char,
    (pysplit sep l).headI = l.takeWhile (fun c => !(c == sep)) := by
  intro l
  induction l with
  | nil => rfl
  | cons c cs ih =>
    by_cases h : c == sep
    · simp [pysplit, h, List.takeWhile_cons]
    · cases hp : pysplit sep cs with
      | nil => exact absurd hp (pysplit_ne_nil sep cs)
      | cons p ps =>
        rw [hp, List.headI_cons] at ih
        simp [pysplit, h, hp, List.takeWhile_cons, ih]

/-- Splitting around the first separator: the part before it (which holds
no separator) becomes the first segment. -/
theorem pysplit_append_sep (sep : Char) : ∀ (a b : List Char),
    a.contains sep = false → pysplit sep (a ++ sep :: b) = a :: pysplit sep b := by
  intro a
  induction a with
  | nil => intro b _; simp [pysplit]
  | cons c a ih =>
    intro b h
    rw [List.contains_cons] at h
    simp only [Bool.or_eq_false_iff, beq_eq_false_iff_ne] at h
    obtain ⟨hne, hcont⟩ := h
    have h1 : ¬ (c == sep) = true := by
      simp only [beq_iff_eq]
      exact fun e => hne e.symm
    have h2 := ih b hcont
    simp [pysplit, h1, h2]

/-- A string containing the separator splits into at least two segments,
so the index-1 access of `split('#')[1]` cannot fail. -/
theorem pysplit_length_ge_two (sep : Char) : ∀ l : List Char,
    l.contains sep = true → 2 ≤ (pysplit sep l).length := by
  intro l
  induction l with
  | nil => intro h; simp [List.contains] at h
  | cons c cs ih =>
    intro h
    by_cases hc : c == sep
    · have hne := pysplit_ne_nil sep cs
      have hlen : 0 < (pysplit sep cs).length := List.length_pos.mpr hne
      simp only [pysplit, hc, if_true, List.length_cons]
      omega
    · rw [List.contains_cons] at h
      have hcf : (sep == c) = false := by
        simp only [beq_eq_false_iff_ne]
        intro e
        exact hc (by simp [e])
      rw [hcf, Bool.false_or] at h
      have := ih h
      cases hp : pysplit sep cs with
      | nil => exact absurd hp (pysplit_ne_nil sep cs)
      | cons p ps =>
        have hcb : (c == sep) = false := by
          cases hcc : (c == sep) with
          | false => rfl
          | true => exact absurd hcc hc
        rw [hp] at this
        simp [pysplit, hcb, hp] at this ⊢
        omega

/-- Claim C1, counterexample: a rule node that lacks the `criteria` field
(but has `behaviors` and `children`) is flattened without any error — the
missing field is silently skipped, contradicting the claim that an absent
`criteria` field raises a malformed-input error. -/
theorem c1_counterexample :
    runrules (RuleNode.mk (some "default") (some []) none (some [])) ([], [])
      = Except.ok ([], []) := rfl

/-- Claim C1, amended: for every rule node passed to the flattener, if the
node lacks a `behaviors` or `children` field, the flattener raises a
malformed-input (key lookup) error that propagates to the caller; a node
lacking only the `criteria` field is silently skipped instead. -/
theorem c1_missing_fields_error :
    ∀ (node : RuleNode) (st : FlatState),
      node.behaviors = none ∨ node.children = none →
      ∃ e, runrules node st = Except.error e := by
  intro node st h
  obtain ⟨nm, bs, cr, ch⟩ := node
  cases hb : bs with
  | none => exact ⟨"KeyError: behaviors", by rw [runrules.eq_1]⟩
  | some behaviors =>
    have hch : ch = none := by
      rcases h with h | h
      · rw [RuleNode.behaviors, hb] at h
        cases h
      · rw [RuleNode.children] at h
        exact h
    subst hch
    cases hcf : runcriteriaField nm cr st.2 with
    | error e => exact ⟨e, by rw [runrules.eq_2, hcf]⟩
    | ok cd => exact ⟨"KeyError: children", by rw [runrules.eq_2, hcf]⟩

/-- Claim C1, witness: a node lacking `behaviors` makes the flattener
raise an error. -/
theorem c1_missing_fields_error_witness :
    ∃ e, runrules (RuleNode.mk (some "default") none (some []) (some []))
      ([], []) = Except.error e :=
  c1_missing_fields_error (RuleNode.mk (some "default") none (some []) (some []))
    ([], []) (Or.inl rfl)

/-- Claim C2: for an absent (`None`) rule-tree input, and for a rule tree
whose root holds no rules (empty behaviors, criteria and children),
constructing `RuleInfo` yields two empty mappings. -/
theorem c2_empty_mappings :
    ruleInfo none = Except.ok ([], []) ∧
    ruleInfo (some emptyRuleTree) = Except.ok ([], []) :=
  ⟨rfl, rfl⟩

/-- Claim C3: for every rule tree the flattener accepts, every behavior of
every node appears exactly once in `behaviorsByName` under its own `name`:
each name's bucket equals the behaviors of that name filtered out of the
depth-first pre-order document-order list (a node's behaviors before its
children's). -/
theorem c3_behaviors_by_name :
    ∀ (root : RuleNode) (bd : Dict Behavior) (cd : Dict Criterion),
      runrules root ([], []) = Except.ok (bd, cd) →
      ∀ nm, (dictGet bd nm).getD [] =
        (docBehaviors root).filter (fun b => b.name == nm) := by
  intro root bd cd h nm
  have hspec := runrules_runlist_ok.1 root ([], []) (bd, cd) h
  have hbd : bd = buildDict Behavior.name (docBehaviors root) [] :=
    congrArg Prod.fst hspec
  rw [hbd, dictGet_buildDict]
  rfl

/-- Claim C3, witness: on a two-node tree with a `caching` behavior in the
root and another in the child, the `caching` bucket is exactly the
document-order filter. -/
theorem c3_behaviors_by_name_witness :
    (dictGet [("caching", [cachingA, cachingB])] "caching").getD [] =
      (docBehaviors twoBehaviorTree).filter (fun b => b.name == "caching") :=
  c3_behaviors_by_name twoBehaviorTree [("caching", [cachingA, cachingB])] []
    rfl "caching"

/-- Claim C4: for every rule tree the flattener accepts, every criterion of
every node appears exactly once in `criteriaByName` under its own `name`,
with its `rulename` field set to the `name` of the rule node that
immediately owns it (as recorded by the document-order annotated list). -/
theorem c4_criteria_by_name :
    ∀ (root : RuleNode) (bd : Dict Behavior) (cd : Dict Criterion),
      runrules root ([], []) = Except.ok (bd, cd) →
      ∀ nm, (dictGet cd nm).getD [] =
        (docCriteria root).filter (fun c => c.name == nm) := by
  intro root bd cd h nm
  have hspec := runrules_runlist_ok.1 root ([], []) (bd, cd) h
  have hcd : cd = buildDict Criterion.name (docCriteria root) [] :=
    congrArg Prod.snd hspec
  rw [hcd, dictGet_buildDict]
  rfl

/-- Claim C4, witness: on a two-node tree with a `path` criterion in the
root and another in the child, the `path` bucket holds both criteria
annotated with their immediate owners' names. -/
theorem c4_criteria_by_name_witness :
    (dictGet [("path", [Criterion.mk "path" "p1" (some "default"),
        Criterion.mk "path" "p2" (some "child")])] "path").getD [] =
      (docCriteria twoCriterionTree).filter (fun c => c.name == "path") :=
  c4_criteria_by_name twoCriterionTree []
    [("path", [Criterion.mk "path" "p1" (some "default"),
      Criterion.mk "path" "p2" (some "child")])]
    rfl "path"

/-- Claim C5, counterexample: for the reference `a#b#c` the code sent to
the endpoint is `b` — the segment between the first and second `#` — not
the substring `b#c` after the `#`, so the claim as stated fails. -/
theorem c5_counterexample :
    extractErrorCode ['a', '#', 'b', '#', 'c'] = ['b'] ∧
    ¬ extractErrorCode ['a', '#', 'b', '#', 'c'] = ['b', '#', 'c'] := by
  decide

/-- Claim C5, amended: for every reference string that contains a `#`, the
reference lookup uses as the error code exactly the segment between the
first `#` and the next `#` (the whole remainder when no second `#`
follows): writing the string as `a ++ '#' :: b` with `a` free of `#`, the
extracted code is the prefix of `b` up to the next `#`. -/
theorem c5_code_is_segment_after_first_hash :
    ∀ (a b : List Char), a.contains '#' = false →
      extractErrorCode (a ++ '#' :: b) = b.takeWhile (fun c => !(c == '#')) := by
  intro a b h
  have hcont : (a ++ '#' :: b).contains '#' = true := by
    simp
  unfold extractErrorCode
  rw [if_pos hcont, pysplit_append_sep '#' a b h]
  have hnn := pysplit_ne_nil '#' b
  have hh := pysplit_headI '#' b
  cases hp : pysplit '#' b with
  | nil => exact absurd hp hnn
  | cons p ps =>
    rw [hp, List.headI_cons] at hh
    show p = b.takeWhile (fun c => !(c == '#'))
    exact hh

/-- Claim C5, witness: for `Error#E_CONNECT_TIMEOUT` the extracted code is
the whole suffix after the single `#`. -/
theorem c5_code_is_segment_after_first_hash_witness :
    ("Error".data.contains '#' = false) ∧
    extractErrorCode ("Error".data ++ '#' :: "E_CONNECT_TIMEOUT".data) =
      "E_CONNECT_TIMEOUT".data.takeWhile (fun c => !(c == '#')) :=
  ⟨by decide, c5_code_is_segment_after_first_hash "Error".data
    "E_CONNECT_TIMEOUT".data (by decide)⟩

/-- Claim C6: for the fixed rule tree containing exactly the two `origin`
behaviors (`CUSTOMER` with hostname `a.example.com`, then `NET_STORAGE`
with download domain `b.example.com.download`), the origins extraction
prints exactly those two lines, in that order, and nothing to standard
error. -/
theorem c6_fixed_origins_output :
    originsCommand (origins [activeProperty] (fun _ => originsFixedTree)) =
      Except.ok ⟨["a.example.com", "b.example.com.download"], []⟩ := rfl

/-- Claim C7: whenever no item of the search result is `ACTIVE`, the
hostname lookup returns `None`, `propertyrules` and `origins` return
`None` rather than any partial structure, and the `origins` subcommand
prints an error message to standard error (and nothing to standard
output). -/
theorem c7_failed_lookup_is_none :
    ∀ (items : List PropertyVersion) (fetchRules : PropertyVersion → RuleTree),
      (∀ x ∈ items, ¬ x.productionStatus = "ACTIVE") →
      propertybyhostname items = none ∧
      propertyrules items fetchRules = none ∧
      origins items fetchRules = Except.ok none ∧
      originsCommand (origins items fetchRules) =
        Except.ok ⟨[], [originsErrorMessage]⟩ := by
  intro items fetchRules h
  have h1 : propertybyhostname items = none := by
    apply List.find?_eq_none.mpr
    intro x hx
    simpa using h x hx
  have h2 : propertyrules items fetchRules = none := by
    unfold propertyrules
    rw [h1]
  have h3 : origins items fetchRules = Except.ok none := by
    unfold origins
    rw [h2]
  refine ⟨h1, h2, h3, ?_⟩
  rw [h3]
  rfl

/-- Claim C7, witness: a search result with one non-`ACTIVE` item. -/
theorem c7_failed_lookup_is_none_witness :
    propertybyhostname [stagingProperty] = none ∧
    propertyrules [stagingProperty] (fun _ => originsFixedTree) = none ∧
    origins [stagingProperty] (fun _ => originsFixedTree) = Except.ok none ∧
    originsCommand (origins [stagingProperty] (fun _ => originsFixedTree)) =
      Except.ok ⟨[], [originsErrorMessage]⟩ :=
  c7_failed_lookup_is_none [stagingProperty] (fun _ => originsFixedTree)
    (by decide)

/-- Claim C8: whenever the `try` body of the urldebug subcommand fails
(any missing key while formatting the `urlDebug.httpResponse` entries),
the subcommand prints the raw JSON result after the already-printed lines
instead of propagating the exception. -/
theorem c8_urldebug_fallback :
    ∀ (r : UrlDebugResult) (ls : List String) (e : String),
      urldebugTryBody r = (ls, some e) →
      urldebugCommand r = ls.map OutItem.line ++ [OutItem.rawDump r] := by
  intro r ls e h
  unfold urldebugCommand
  rw [h]

/-- Claim C8, witness: a result lacking the `urlDebug` key makes the
subcommand print just the raw dump. -/
theorem c8_urldebug_fallback_witness :
    urldebugCommand ⟨none⟩ = [OutItem.rawDump ⟨none⟩] :=
  c8_urldebug_fallback ⟨none⟩ [] "KeyError: urlDebug" rfl

/-- Claim C9: for every cache name whose backing file does not exist,
`CacheControl.load` catches the file-not-found error and returns `None`
instead of raising. -/
theorem c9_missing_cache_file :
    ∀ (α : Type) (fs : String → Option String)
      (parseJson : String → Except String α)
      (cachefolder cname extension : String),
      fs (CacheControl.cachename cachefolder cname extension) = none →
      CacheControl.load fs parseJson cachefolder cname extension =
        Except.ok none := by
  intro α fs parseJson cachefolder cname extension h
  unfold CacheControl.load
  rw [h]

/-- Claim C9, witness: on an empty filesystem every load yields `None`. -/
theorem c9_missing_cache_file_witness :
    CacheControl.load (fun _ => none) (fun _ => Except.error "invalid json")
      "cache" "item" ".json" = Except.ok (none : Option Unit) :=
  c9_missing_cache_file Unit (fun _ => none)
    (fun _ => Except.error "invalid json") "cache" "item" ".json" rfl

/-- Claim C10: for every hostname whose property rule tree is retrieved
and flattened successfully but contains no behavior named `origin`
anywhere, `AkamaiDiag.origins` raises a key-lookup error (the unguarded
`behaviors['origin']`) rather than returning `None` or an empty list. -/
theorem c10_missing_origin_is_keyerror :
    ∀ (items : List PropertyVersion) (fetchRules : PropertyVersion → RuleTree)
      (rt : RuleTree) (root : RuleNode) (bd : Dict Behavior) (cd : Dict Criterion),
      propertyrules items fetchRules = some rt →
      rt.rules = some root →
      runrules root ([], []) = Except.ok (bd, cd) →
      (∀ b ∈ docBehaviors root, ¬ b.name = "origin") →
      origins items fetchRules = Except.error "KeyError: origin" := by
  intro items fetchRules rt root bd cd hpr hrt hrun hnone
  have hspec := runrules_runlist_ok.1 root ([], []) (bd, cd) hrun
  have hbd : bd = buildDict Behavior.name (docBehaviors root) [] :=
    congrArg Prod.fst hspec
  have hmiss : dictGet bd "origin" = none := by
    rw [hbd]
    exact dictGet_buildDict_none Behavior.name (docBehaviors root) []
      "origin" (dictGet_nil "origin") hnone
  have hri : ruleInfo (some rt) = Except.ok (bd, cd) := by
    have hstep : ruleInfo (some rt) =
        match rt.rules with
        | none => Except.error "KeyError: rules"
        | some root => runrules root ([], []) := rfl
    rw [hstep, hrt]
    exact hrun
  simp only [origins, hpr, hri, hmiss]

/-- Claim C10, witness: a tree holding only a `caching` behavior makes
`origins` fail with the key-lookup error. -/
theorem c10_missing_origin_is_keyerror_witness :
    origins [activeProperty] (fun _ => noOriginTree) =
      Except.error "KeyError: origin" :=
  c10_missing_origin_is_keyerror [activeProperty] (fun _ => noOriginTree)
    noOriginTree
    (RuleNode.mk (some "default") (some [⟨"caching", none⟩]) (some []) (some []))
    [("caching", [⟨"caching", none⟩])] [] rfl rfl rfl (by decide)
